import Mathlib

/-!
Verification of the delivery-route planner (app.py / app2.py / app3.py).

The geometry helpers (`haversine`, `calculate_bearing`, `get_interval_arrows`)
are shallowly embedded over the real numbers, following the Python source of
`src/app3.py` line by line.  The Google-Maps facing helpers
(`create_distance_matrix`, `get_route_polyline`, the run-button pipeline) are
embedded as functions of the external service's response, which is passed in
as an explicit argument; the OR-Tools routing model built by `solve_vrp` is
embedded as the data of the constraints it installs.
-/

open Real

/-- Python `math.radians`: degrees to radians. -/
noncomputable def radians (x : ℝ) : ℝ := x * Real.pi / 180

/-- Python `math.degrees`: radians to degrees. -/
noncomputable def degrees (x : ℝ) : ℝ := x * 180 / Real.pi

/-- Python `math.atan2 y x`: the angle of the point `(x, y)`, in `(-π, π]`
(`atan2 0 0 = 0`, as in CPython).  `Complex.arg` has exactly this contract. -/
noncomputable def atan2 (y x : ℝ) : ℝ := Complex.arg (Complex.mk x y)

/-- Python `a % b` on floats for a positive modulus `b`: the representative of
`a` modulo `b` lying in `[0, b)`. -/
noncomputable def pymod (a b : ℝ) : ℝ := a - b * ⌊a / b⌋

/-- `haversine` from `src/app3.py` lines 26-34: great-circle distance on a
sphere of radius 6 371 000 m. -/
noncomputable def haversine (coord1 coord2 : ℝ × ℝ) : ℝ :=
  let R : ℝ := 6371000
  let lat1 := radians coord1.1
  let lon1 := radians coord1.2
  let lat2 := radians coord2.1
  let lon2 := radians coord2.2
  let dlat := lat2 - lat1
  let dlon := lon2 - lon1
  let a := Real.sin (dlat / 2) ^ 2 +
    Real.cos lat1 * Real.cos lat2 * Real.sin (dlon / 2) ^ 2
  let c := 2 * atan2 (Real.sqrt a) (Real.sqrt (1 - a))
  R * c

/-- `calculate_bearing` from `src/app3.py` lines 36-45: forward azimuth from
`coord1` to `coord2`, in degrees, normalised by `(b + 360) % 360`. -/
noncomputable def calculate_bearing (coord1 coord2 : ℝ × ℝ) : ℝ :=
  let lat1 := radians coord1.1
  let lon1 := radians coord1.2
  let lat2 := radians coord2.1
  let lon2 := radians coord2.2
  let dlon := lon2 - lon1
  let x := Real.sin dlon * Real.cos lat2
  let y := Real.cos lat1 * Real.sin lat2 -
    Real.sin lat1 * Real.cos lat2 * Real.cos dlon
  let initial_bearing := degrees (atan2 x y)
  pymod (initial_bearing + 360) 360

/-- The loop body of `get_interval_arrows` (`src/app3.py` lines 50-63): walk
the segments `p1 → p2`, carrying the accumulated distance since the last
marker; when the accumulator plus the segment reaches the interval, emit one
linearly interpolated marker and restart the accumulator at the leftover
`seg_dist - remaining`. -/
noncomputable def arrowsLoop (interval : ℝ) : ℝ × ℝ → List (ℝ × ℝ) → ℝ → List (ℝ × ℝ × ℝ)
  | _, [], _ => []
  | p1, p2 :: rest, dist_accum =>
    let seg_dist := haversine p1 p2
    if interval ≤ dist_accum + seg_dist then
      let remaining := interval - dist_accum
      let ratio := remaining / seg_dist
      (p1.1 + (p2.1 - p1.1) * ratio, p1.2 + (p2.2 - p1.2) * ratio,
        calculate_bearing p1 p2) :: arrowsLoop interval p2 rest (seg_dist - remaining)
    else
      arrowsLoop interval p2 rest (dist_accum + seg_dist)

/-- `get_interval_arrows` from `src/app3.py` lines 47-64. -/
noncomputable def get_interval_arrows (path : List (ℝ × ℝ)) (interval_meters : ℝ) :
    List (ℝ × ℝ × ℝ) :=
  match path with
  | [] => []
  | p :: rest => arrowsLoop interval_meters p rest 0

/-- Cumulative great-circle arc length of a polyline: the sum of the
`haversine` lengths of its consecutive segments. -/
noncomputable def pathLength : List (ℝ × ℝ) → ℝ
  | [] => 0
  | [_] => 0
  | p :: q :: rest => haversine p q + pathLength (q :: rest)

lemma arrowsLoop_nil (interval : ℝ) (p1 : ℝ × ℝ) (a : ℝ) :
    arrowsLoop interval p1 [] a = [] := rfl

lemma arrowsLoop_cons_emit {interval a : ℝ} {p1 p2 : ℝ × ℝ} (rest : List (ℝ × ℝ))
    (h : interval ≤ a + haversine p1 p2) :
    arrowsLoop interval p1 (p2 :: rest) a =
      (p1.1 + (p2.1 - p1.1) * ((interval - a) / haversine p1 p2),
        p1.2 + (p2.2 - p1.2) * ((interval - a) / haversine p1 p2),
        calculate_bearing p1 p2) ::
        arrowsLoop interval p2 rest (haversine p1 p2 - (interval - a)) := by
  simp only [arrowsLoop]
  rw [if_pos h]

lemma arrowsLoop_cons_skip {interval a : ℝ} {p1 p2 : ℝ × ℝ} (rest : List (ℝ × ℝ))
    (h : ¬ interval ≤ a + haversine p1 p2) :
    arrowsLoop interval p1 (p2 :: rest) a =
      arrowsLoop interval p2 rest (a + haversine p1 p2) := by
  simp only [arrowsLoop]
  rw [if_neg h]

lemma arrowsLoop_length_le (interval : ℝ) (rest : List (ℝ × ℝ)) :
    ∀ (p1 : ℝ × ℝ) (a : ℝ), (arrowsLoop interval p1 rest a).length ≤ rest.length := by
  induction rest with
  | nil => intro p1 a; simp [arrowsLoop_nil]
  | cons p2 rest ih =>
    intro p1 a
    by_cases h : interval ≤ a + haversine p1 p2
    · rw [arrowsLoop_cons_emit rest h]
      simpa using ih p2 (haversine p1 p2 - (interval - a))
    · rw [arrowsLoop_cons_skip rest h]
      exact (ih p2 (a + haversine p1 p2)).trans (Nat.le_succ _)

lemma atan2_nonneg {y x : ℝ} (hy : 0 ≤ y) : 0 ≤ atan2 y x := by
  unfold atan2
  exact Complex.arg_nonneg_iff.mpr hy

lemma atan2_sin_cos {θ : ℝ} (h0 : -Real.pi < θ) (h1 : θ ≤ Real.pi) :
    atan2 (Real.sin θ) (Real.cos θ) = θ := by
  unfold atan2
  rw [Complex.mk_eq_add_mul_I, Complex.ofReal_cos, Complex.ofReal_sin]
  exact Complex.arg_cos_add_sin_mul_I ⟨h0, h1⟩

lemma haversine_nonneg (c1 c2 : ℝ × ℝ) : 0 ≤ haversine c1 c2 := by
  unfold haversine
  dsimp only
  have h := @atan2_nonneg (Real.sqrt (Real.sin ((radians c2.1 - radians c1.1) / 2) ^ 2 +
      Real.cos (radians c1.1) * Real.cos (radians c2.1) *
      Real.sin ((radians c2.2 - radians c1.2) / 2) ^ 2))
    (Real.sqrt (1 - (Real.sin ((radians c2.1 - radians c1.1) / 2) ^ 2 +
      Real.cos (radians c1.1) * Real.cos (radians c2.1) *
      Real.sin ((radians c2.2 - radians c1.2) / 2) ^ 2))) (Real.sqrt_nonneg _)
  linarith

/-- On the equator, the haversine distance between longitudes `l` and `l + d`
(for `0 ≤ d ≤ 180`) is exactly the subtended angle times the Earth radius. -/
lemma haversine_equator (l d : ℝ) (h0 : 0 ≤ d) (h1 : d ≤ 180) :
    haversine (0, l) (0, l + d) = 6371000 * radians d := by
  have hπ := Real.pi_pos
  have hθ0 : 0 ≤ radians d / 2 := by unfold radians; positivity
  have hθ1 : radians d / 2 ≤ Real.pi / 2 := by unfold radians; nlinarith
  have e0 : radians 0 = 0 := by simp [radians]
  have e2 : radians (l + d) - radians l = radians d := by unfold radians; ring
  have hs : Real.sqrt (Real.sin (radians d / 2) ^ 2) = Real.sin (radians d / 2) :=
    Real.sqrt_sq (Real.sin_nonneg_of_nonneg_of_le_pi hθ0 (by linarith))
  have hc : Real.sqrt (1 - Real.sin (radians d / 2) ^ 2) = Real.cos (radians d / 2) := by
    rw [← Real.cos_sq']
    exact Real.sqrt_sq (Real.cos_nonneg_of_mem_Icc ⟨by linarith, hθ1⟩)
  have ha : atan2 (Real.sin (radians d / 2)) (Real.cos (radians d / 2)) = radians d / 2 :=
    atan2_sin_cos (by linarith) (by linarith)
  unfold haversine
  dsimp only
  rw [e0, e2]
  norm_num
  rw [hs, hc, ha]
  ring

lemma haversine_zero_180 : haversine ((0 : ℝ), 0) (0, 180) = 6371000 * Real.pi := by
  have h := haversine_equator 0 180 (by norm_num) le_rfl
  have e : ((0 : ℝ) + 180) = 180 := by norm_num
  rw [e] at h
  rw [h]
  unfold radians
  ring

lemma pathLength_cons_cons (p q : ℝ × ℝ) (rest : List (ℝ × ℝ)) :
    pathLength (p :: q :: rest) = haversine p q + pathLength (q :: rest) := rfl

/-- Invariant of the annotator loop: when the interval is positive, every
segment is at most one interval long and the incoming accumulator lies in
`[0, interval)`, the emitted marker count `n` satisfies
`n * interval + leftover = accumulator + remaining arc length` with the final
leftover again in `[0, interval)`. -/
lemma arrowsLoop_count (interval : ℝ) (_hI : 0 < interval) :
    ∀ (rest : List (ℝ × ℝ)) (p1 : ℝ × ℝ) (a : ℝ), 0 ≤ a → a < interval →
      List.Chain' (fun p q => haversine p q ≤ interval) (p1 :: rest) →
      ∃ b, 0 ≤ b ∧ b < interval ∧
        ((arrowsLoop interval p1 rest a).length : ℝ) * interval + b =
          a + pathLength (p1 :: rest) := by
  intro rest
  induction rest with
  | nil =>
    intro p1 a h0 h1 _
    exact ⟨a, h0, h1, by simp [arrowsLoop_nil, pathLength]⟩
  | cons p2 rest ih =>
    intro p1 a h0 h1 hchain
    have hseg0 : 0 ≤ haversine p1 p2 := haversine_nonneg p1 p2
    have hsegI : haversine p1 p2 ≤ interval := (List.chain'_cons.mp hchain).1
    have htail : List.Chain' (fun p q => haversine p q ≤ interval) (p2 :: rest) :=
      (List.chain'_cons.mp hchain).2
    by_cases h : interval ≤ a + haversine p1 p2
    · obtain ⟨b, hb0, hb1, hb⟩ :=
        ih p2 (haversine p1 p2 - (interval - a)) (by linarith) (by linarith) htail
      refine ⟨b, hb0, hb1, ?_⟩
      rw [arrowsLoop_cons_emit rest h, pathLength_cons_cons]
      push_cast [List.length_cons]
      linarith
    · obtain ⟨b, hb0, hb1, hb⟩ :=
        ih p2 (a + haversine p1 p2) (by linarith) (by linarith) htail
      refine ⟨b, hb0, hb1, ?_⟩
      rw [arrowsLoop_cons_skip rest h, pathLength_cons_cons]
      linarith

/-- C1 (amended): when every segment of the polyline is at most one interval
long, the number of markers equals `⌊ total arc length / interval ⌋` exactly. -/
theorem interval_arrows_count_eq_floor_of_short_segments (path : List (ℝ × ℝ))
    (interval : ℝ) (hI : 0 < interval)
    (hseg : List.Chain' (fun p q => haversine p q ≤ interval) path) :
    ((get_interval_arrows path interval).length : ℤ) =
      ⌊pathLength path / interval⌋ := by
  match path with
  | [] =>
    simp [get_interval_arrows, pathLength]
  | p :: rest =>
    obtain ⟨b, hb0, hb1, hb⟩ := arrowsLoop_count interval hI rest p 0 le_rfl hI hseg
    simp only [get_interval_arrows]
    symm
    rw [Int.floor_eq_iff]
    constructor
    · push_cast
      rw [le_div_iff₀ hI]
      linarith
    · push_cast
      rw [div_lt_iff₀ hI]
      linarith

/-- C1 (counterexample): a single straight segment spanning thousands of
interval multiples yields exactly one marker, while the claim predicts
`⌊L / I⌋ = 6671` of them (within one): the annotator never emits several
markers inside one segment. -/
theorem interval_arrows_long_segment_single_marker :
    (get_interval_arrows [((0 : ℝ), 0), (0, 180)] 3000).length = 1 ∧
    (6000 : ℤ) ≤ ⌊haversine ((0 : ℝ), 0) (0, 180) / 3000⌋ := by
  have hpi := Real.pi_gt_three
  constructor
  · have hcond : (3000 : ℝ) ≤ 0 + haversine ((0 : ℝ), 0) (0, 180) := by
      rw [haversine_zero_180]; nlinarith
    simp only [get_interval_arrows]
    rw [arrowsLoop_cons_emit [] hcond, arrowsLoop_nil]
    simp
  · rw [Int.le_floor]
    rw [haversine_zero_180]
    push_cast
    rw [le_div_iff₀ (by norm_num)]
    nlinarith

/-- Instrumented record of one emitted marker: the two vertices bracketing its
segment, the interpolation ratio `remaining / segmentLength` used to place it,
and the arc length from the polyline start to the segment's first vertex. -/
structure ArrowInfo where
  p1 : ℝ × ℝ
  p2 : ℝ × ℝ
  ratio : ℝ
  distBefore : ℝ

/-- The annotator loop again, recording for each emitted marker its segment,
ratio and the arc length walked before the segment (`arrowsLoop` is its image
under `markerOfInfo`, see `arrowsLoop_eq_map_info`). -/
noncomputable def arrowsLoopInfo (interval : ℝ) :
    ℝ × ℝ → List (ℝ × ℝ) → ℝ → ℝ → List ArrowInfo
  | _, [], _, _ => []
  | p1, p2 :: rest, dist_accum, dist_before =>
    let seg_dist := haversine p1 p2
    if interval ≤ dist_accum + seg_dist then
      ⟨p1, p2, (interval - dist_accum) / seg_dist, dist_before⟩ ::
        arrowsLoopInfo interval p2 rest (seg_dist - (interval - dist_accum))
          (dist_before + seg_dist)
    else
      arrowsLoopInfo interval p2 rest (dist_accum + seg_dist) (dist_before + seg_dist)

/-- The interpolated coordinate of an instrumented marker. -/
noncomputable def markerPoint (e : ArrowInfo) : ℝ × ℝ :=
  (e.p1.1 + (e.p2.1 - e.p1.1) * e.ratio, e.p1.2 + (e.p2.2 - e.p1.2) * e.ratio)

/-- The `(lat, lng, bearing)` triple the source emits for an instrumented
marker. -/
noncomputable def markerOfInfo (e : ArrowInfo) : ℝ × ℝ × ℝ :=
  ((markerPoint e).1, (markerPoint e).2, calculate_bearing e.p1 e.p2)

/-- Instrumented version of `get_interval_arrows`. -/
noncomputable def pathInfo (path : List (ℝ × ℝ)) (interval : ℝ) : List ArrowInfo :=
  match path with
  | [] => []
  | p :: rest => arrowsLoopInfo interval p rest 0 0

lemma arrowsLoopInfo_nil (interval : ℝ) (p1 : ℝ × ℝ) (a d : ℝ) :
    arrowsLoopInfo interval p1 [] a d = [] := rfl

lemma arrowsLoopInfo_cons_emit {interval a : ℝ} {p1 p2 : ℝ × ℝ} (rest : List (ℝ × ℝ))
    (d : ℝ) (h : interval ≤ a + haversine p1 p2) :
    arrowsLoopInfo interval p1 (p2 :: rest) a d =
      ⟨p1, p2, (interval - a) / haversine p1 p2, d⟩ ::
        arrowsLoopInfo interval p2 rest (haversine p1 p2 - (interval - a))
          (d + haversine p1 p2) := by
  simp only [arrowsLoopInfo]
  rw [if_pos h]

lemma arrowsLoopInfo_cons_skip {interval a : ℝ} {p1 p2 : ℝ × ℝ} (rest : List (ℝ × ℝ))
    (d : ℝ) (h : ¬ interval ≤ a + haversine p1 p2) :
    arrowsLoopInfo interval p1 (p2 :: rest) a d =
      arrowsLoopInfo interval p2 rest (a + haversine p1 p2) (d + haversine p1 p2) := by
  simp only [arrowsLoopInfo]
  rw [if_neg h]

lemma arrowsLoop_eq_map_info (interval : ℝ) (rest : List (ℝ × ℝ)) :
    ∀ (p1 : ℝ × ℝ) (a d : ℝ),
      arrowsLoop interval p1 rest a =
        (arrowsLoopInfo interval p1 rest a d).map markerOfInfo := by
  induction rest with
  | nil => intro p1 a d; rfl
  | cons p2 rest ih =>
    intro p1 a d
    by_cases h : interval ≤ a + haversine p1 p2
    · rw [arrowsLoop_cons_emit rest h, arrowsLoopInfo_cons_emit rest d h, List.map_cons,
        ih p2 (haversine p1 p2 - (interval - a)) (d + haversine p1 p2)]
      rfl
    · rw [arrowsLoop_cons_skip rest h, arrowsLoopInfo_cons_skip rest d h,
        ih p2 (a + haversine p1 p2) (d + haversine p1 p2)]

lemma get_interval_arrows_eq_map (path : List (ℝ × ℝ)) (interval : ℝ) :
    get_interval_arrows path interval = (pathInfo path interval).map markerOfInfo := by
  match path with
  | [] => rfl
  | p :: rest =>
    simp only [get_interval_arrows, pathInfo]
    exact arrowsLoop_eq_map_info interval rest p 0 0

lemma arrowsLoopInfo_ratio_mem (interval : ℝ) (_hI : 0 < interval)
    (rest : List (ℝ × ℝ)) :
    ∀ (p1 : ℝ × ℝ) (a d : ℝ), 0 ≤ a → a < interval →
      List.Chain' (fun p q => haversine p q ≤ interval) (p1 :: rest) →
      ∀ e ∈ arrowsLoopInfo interval p1 rest a d, 0 ≤ e.ratio ∧ e.ratio ≤ 1 := by
  induction rest with
  | nil => intro p1 a d _ _ _ e he; simp [arrowsLoopInfo_nil] at he
  | cons p2 rest ih =>
    intro p1 a d h0 h1 hchain e he
    have hseg0 : 0 ≤ haversine p1 p2 := haversine_nonneg p1 p2
    have hsegI : haversine p1 p2 ≤ interval := (List.chain'_cons.mp hchain).1
    have htail := (List.chain'_cons.mp hchain).2
    by_cases h : interval ≤ a + haversine p1 p2
    · rw [arrowsLoopInfo_cons_emit rest d h] at he
      rcases List.mem_cons.mp he with he | he
      · subst he
        have hsegpos : 0 < haversine p1 p2 := by linarith
        constructor
        · exact div_nonneg (by linarith) (by linarith)
        · rw [div_le_one hsegpos]; linarith
      · exact ih p2 (haversine p1 p2 - (interval - a)) (d + haversine p1 p2)
          (by linarith) (by linarith) htail e he
    · rw [arrowsLoopInfo_cons_skip rest d h] at he
      push_neg at h
      exact ih p2 (a + haversine p1 p2) (d + haversine p1 p2)
        (by linarith) (by linarith) htail e he

lemma arrowsLoopInfo_arcs (interval : ℝ) (_hI : 0 < interval)
    (rest : List (ℝ × ℝ)) :
    ∀ (p1 : ℝ × ℝ) (a d : ℝ) (c : ℕ), 0 ≤ a → a < interval →
      d = (c : ℝ) * interval + a →
      List.Chain' (fun p q => haversine p q ≤ interval) (p1 :: rest) →
      (arrowsLoopInfo interval p1 rest a d).map
          (fun e => e.distBefore + e.ratio * haversine e.p1 e.p2) =
        (List.range (arrowsLoopInfo interval p1 rest a d).length).map
          (fun n : ℕ => ((c : ℝ) + (n : ℝ) + 1) * interval) := by
  induction rest with
  | nil => intro p1 a d c _ _ _ _; rfl
  | cons p2 rest ih =>
    intro p1 a d c h0 h1 hd hchain
    have hseg0 : 0 ≤ haversine p1 p2 := haversine_nonneg p1 p2
    have hsegI : haversine p1 p2 ≤ interval := (List.chain'_cons.mp hchain).1
    have htail := (List.chain'_cons.mp hchain).2
    by_cases h : interval ≤ a + haversine p1 p2
    · have hsegpos : 0 < haversine p1 p2 := by linarith
      rw [arrowsLoopInfo_cons_emit rest d h]
      rw [List.map_cons, List.length_cons, List.range_succ_eq_map, List.map_cons,
        List.map_map]
      dsimp only
      have hhead : d + (interval - a) / haversine p1 p2 * haversine p1 p2 =
          ((c : ℝ) + (0 : ℕ) + 1) * interval := by
        rw [div_mul_cancel₀ _ (ne_of_gt hsegpos)]
        push_cast
        rw [hd]
        ring
      rw [ih p2 (haversine p1 p2 - (interval - a)) (d + haversine p1 p2) (c + 1)
        (by linarith) (by linarith) (by push_cast; rw [hd]; ring) htail]
      refine congrArg₂ _ hhead ?_
      refine List.map_congr_left ?_
      intro n _
      simp only [Function.comp]
      push_cast
      ring
    · rw [arrowsLoopInfo_cons_skip rest d h]
      push_neg at h
      exact ih p2 (a + haversine p1 p2) (d + haversine p1 p2) c
        (by linarith) (by linarith) (by rw [hd]; ring) htail

/-- A point lies (coordinatewise) between two vertices. -/
def onSegment (m p q : ℝ × ℝ) : Prop :=
  min p.1 q.1 ≤ m.1 ∧ m.1 ≤ max p.1 q.1 ∧ min p.2 q.2 ≤ m.2 ∧ m.2 ≤ max p.2 q.2

lemma interp_between {a b r : ℝ} (h0 : 0 ≤ r) (h1 : r ≤ 1) :
    min a b ≤ a + (b - a) * r ∧ a + (b - a) * r ≤ max a b := by
  rcases le_total a b with h | h
  · rw [min_eq_left h, max_eq_right h]
    constructor <;> nlinarith
  · rw [min_eq_right h, max_eq_left h]
    constructor <;> nlinarith

lemma seg_bound_002 (l : ℝ) : haversine ((0 : ℝ), l) (0, l + 0.02) ≤ 3000 := by
  have h := haversine_equator l 0.02 (by norm_num) (by norm_num)
  rw [h]
  unfold radians
  nlinarith [Real.pi_lt_d2, Real.pi_pos]

lemma chain_004 : List.Chain' (fun p q => haversine p q ≤ 3000)
    [((0 : ℝ), 0), (0, 0.02), (0, 0.04)] := by
  refine List.chain'_cons.mpr ⟨?_, List.chain'_cons.mpr ⟨?_, List.chain'_singleton _⟩⟩
  · have h := seg_bound_002 0
    have e : ((0 : ℝ) + 0.02) = 0.02 := by norm_num
    rw [e] at h
    exact h
  · have h := seg_bound_002 0.02
    have e : ((0.02 : ℝ) + 0.02) = 0.04 := by norm_num
    rw [e] at h
    exact h

/-- Witness for the amended C1 on a short equatorial polyline whose segments
are each below the interval. -/
theorem interval_arrows_count_eq_floor_witness :
    ((get_interval_arrows [((0 : ℝ), 0), (0, 0.02), (0, 0.04)] 3000).length : ℤ) =
      ⌊pathLength [((0 : ℝ), 0), (0, 0.02), (0, 0.04)] / 3000⌋ :=
  interval_arrows_count_eq_floor_of_short_segments _ 3000 (by norm_num) chain_004

/-- C2 (amended): provided every segment of the polyline is at most one
interval long, the marker list is the image of the instrumented run, every
marker's interpolation ratio lies in `[0, 1]` (so each marker lies between the
two vertices bracketing its segment), and the arc length from the polyline
start to the `n`-th marker (counted from 0) is exactly `(n + 1) * interval`. -/
theorem interval_arrows_ratio_unit_and_arc_multiples (path : List (ℝ × ℝ))
    (interval : ℝ) (hI : 0 < interval)
    (hseg : List.Chain' (fun p q => haversine p q ≤ interval) path) :
    get_interval_arrows path interval = (pathInfo path interval).map markerOfInfo ∧
    (∀ e ∈ pathInfo path interval,
        0 ≤ e.ratio ∧ e.ratio ≤ 1 ∧ onSegment (markerPoint e) e.p1 e.p2) ∧
    (pathInfo path interval).map
        (fun e => e.distBefore + e.ratio * haversine e.p1 e.p2) =
      (List.range (pathInfo path interval).length).map
        (fun n : ℕ => ((n : ℝ) + 1) * interval) := by
  refine ⟨get_interval_arrows_eq_map path interval, ?_, ?_⟩
  · intro e he
    match path with
    | [] => simp [pathInfo] at he
    | p :: rest =>
      simp only [pathInfo] at he
      have hr := arrowsLoopInfo_ratio_mem interval hI rest p 0 0 le_rfl hI hseg e he
      refine ⟨hr.1, hr.2, ?_⟩
      simp only [onSegment, markerPoint]
      exact ⟨(interp_between hr.1 hr.2).1, (interp_between hr.1 hr.2).2,
        (interp_between hr.1 hr.2).1, (interp_between hr.1 hr.2).2⟩
  · match path with
    | [] => rfl
    | p :: rest =>
      simp only [pathInfo]
      rw [arrowsLoopInfo_arcs interval hI rest p 0 0 0 le_rfl hI (by norm_num) hseg]
      refine List.map_congr_left ?_
      intro n _
      norm_num

/-- Witness for the amended C2 on the same short equatorial polyline. -/
theorem interval_arrows_ratio_unit_witness :
    get_interval_arrows [((0 : ℝ), 0), (0, 0.02), (0, 0.04)] 3000 =
      (pathInfo [((0 : ℝ), 0), (0, 0.02), (0, 0.04)] 3000).map markerOfInfo ∧
    (∀ e ∈ pathInfo [((0 : ℝ), 0), (0, 0.02), (0, 0.04)] 3000,
        0 ≤ e.ratio ∧ e.ratio ≤ 1 ∧ onSegment (markerPoint e) e.p1 e.p2) ∧
    (pathInfo [((0 : ℝ), 0), (0, 0.02), (0, 0.04)] 3000).map
        (fun e => e.distBefore + e.ratio * haversine e.p1 e.p2) =
      (List.range (pathInfo [((0 : ℝ), 0), (0, 0.02), (0, 0.04)] 3000).length).map
        (fun n : ℕ => ((n : ℝ) + 1) * 3000) :=
  interval_arrows_ratio_unit_and_arc_multiples _ 3000 (by norm_num) chain_004

lemma haversine_zero_90 : haversine ((0 : ℝ), 0) (0, 90) = 6371000 * (Real.pi / 2) := by
  have h := haversine_equator 0 90 (by norm_num) (by norm_num)
  have e : ((0 : ℝ) + 90) = 90 := by norm_num
  rw [e] at h
  rw [h]
  unfold radians
  ring

lemma haversine_90_9001 :
    haversine ((0 : ℝ), 90) (0, 90.01) = 6371000 * (0.01 * Real.pi / 180) := by
  have h := haversine_equator 90 0.01 (by norm_num) (by norm_num)
  have e : ((90 : ℝ) + 0.01) = 90.01 := by norm_num
  rw [e] at h
  rw [h]
  unfold radians
  ring

/-- C2 (counterexample): on the polyline equator 0° → 90° → 90.01° with a
3000 m interval, the first segment leaves the accumulator far above the
interval, so the marker emitted for the second segment has a negative
interpolation ratio: its longitude is below 90, outside its bracketing
vertices (0, 90) and (0, 90.01). -/
theorem interval_arrows_marker_off_segment :
    (get_interval_arrows [((0 : ℝ), 0), (0, 90), (0, 90.01)] 3000).length = 2 ∧
    ((get_interval_arrows [((0 : ℝ), 0), (0, 90), (0, 90.01)] 3000).getD 1
        (0, 0, 0)).2.1 < 90 ∧
    ¬ onSegment
        (((get_interval_arrows [((0 : ℝ), 0), (0, 90), (0, 90.01)] 3000).getD 1
            (0, 0, 0)).1,
          ((get_interval_arrows [((0 : ℝ), 0), (0, 90), (0, 90.01)] 3000).getD 1
            (0, 0, 0)).2.1)
        ((0 : ℝ), 90) (0, 90.01) := by
  have hs1 := haversine_zero_90
  have hs2 := haversine_90_9001
  have hpi := Real.pi_gt_three
  have hpipos := Real.pi_pos
  have hcond1 : (3000 : ℝ) ≤ 0 + haversine ((0 : ℝ), 0) (0, 90) := by
    rw [hs1]; nlinarith
  have hcond2 : (3000 : ℝ) ≤ (haversine ((0 : ℝ), 0) (0, 90) - (3000 - 0)) +
      haversine ((0 : ℝ), 90) (0, 90.01) := by
    rw [hs1, hs2]; nlinarith
  have hr2 : (3000 - (haversine ((0 : ℝ), 0) (0, 90) - (3000 - 0))) /
      haversine ((0 : ℝ), 90) (0, 90.01) < 0 := by
    apply div_neg_of_neg_of_pos
    · rw [hs1]; nlinarith
    · rw [hs2]; nlinarith
  have hout : get_interval_arrows [((0 : ℝ), 0), (0, 90), (0, 90.01)] 3000 =
      [(((0 : ℝ), 0).1 + (((0 : ℝ), 90).1 - ((0 : ℝ), 0).1) *
          ((3000 - 0) / haversine ((0 : ℝ), 0) (0, 90)),
        ((0 : ℝ), 0).2 + (((0 : ℝ), 90).2 - ((0 : ℝ), 0).2) *
          ((3000 - 0) / haversine ((0 : ℝ), 0) (0, 90)),
        calculate_bearing ((0 : ℝ), 0) (0, 90)),
        (((0 : ℝ), 90).1 + (((0 : ℝ), 90.01).1 - ((0 : ℝ), 90).1) *
          ((3000 - (haversine ((0 : ℝ), 0) (0, 90) - (3000 - 0))) /
            haversine ((0 : ℝ), 90) (0, 90.01)),
        ((0 : ℝ), 90).2 + (((0 : ℝ), 90.01).2 - ((0 : ℝ), 90).2) *
          ((3000 - (haversine ((0 : ℝ), 0) (0, 90) - (3000 - 0))) /
            haversine ((0 : ℝ), 90) (0, 90.01)),
        calculate_bearing ((0 : ℝ), 90) (0, 90.01))] := by
    simp only [get_interval_arrows]
    rw [arrowsLoop_cons_emit _ hcond1, arrowsLoop_cons_emit _ hcond2, arrowsLoop_nil]
  rw [hout]
  refine ⟨rfl, ?_, ?_⟩
  · show (90 : ℝ) + (90.01 - 90) *
        ((3000 - (haversine ((0 : ℝ), 0) (0, 90) - (3000 - 0))) /
          haversine ((0 : ℝ), 90) (0, 90.01)) < 90
    linarith [hr2]
  · intro hc
    obtain ⟨-, -, h3, -⟩ := hc
    have h4 : min (90 : ℝ) 90.01 ≤ (90 : ℝ) + (90.01 - 90) *
        ((3000 - (haversine ((0 : ℝ), 0) (0, 90) - (3000 - 0))) /
          haversine ((0 : ℝ), 90) (0, 90.01)) := h3
    rw [min_eq_left (by norm_num : (90 : ℝ) ≤ 90.01)] at h4
    linarith [hr2]

/-- The spec's forward-azimuth formula (the sentence in section 4.3): the
angle `atan2 (sin Δλ * cos φ2) (cos φ1 * sin φ2 − sin φ1 * cos φ2 * cos Δλ)`
converted to degrees and normalised into `[0, 360)` — written here as the
canonical representative modulo 360. -/
noncomputable def bearing_spec (coord1 coord2 : ℝ × ℝ) : ℝ :=
  let lat1 := radians coord1.1
  let lat2 := radians coord2.1
  let dlon := radians coord2.2 - radians coord1.2
  let deg := degrees (atan2 (Real.sin dlon * Real.cos lat2)
    (Real.cos lat1 * Real.sin lat2 - Real.sin lat1 * Real.cos lat2 * Real.cos dlon))
  deg - 360 * ⌊deg / 360⌋

lemma pymod_nonneg (a : ℝ) {b : ℝ} (hb : 0 < b) : 0 ≤ pymod a b := by
  unfold pymod
  have h1 : ((⌊a / b⌋ : ℤ) : ℝ) ≤ a / b := Int.floor_le _
  have h2 : b * ((⌊a / b⌋ : ℤ) : ℝ) ≤ b * (a / b) := by
    exact mul_le_mul_of_nonneg_left h1 hb.le
  have h3 : b * (a / b) = a := by field_simp
  linarith

lemma pymod_lt (a : ℝ) {b : ℝ} (hb : 0 < b) : pymod a b < b := by
  unfold pymod
  have h1 : a / b < (⌊a / b⌋ : ℤ) + 1 := Int.lt_floor_add_one _
  have h2 : b * (a / b) < b * (((⌊a / b⌋ : ℤ) : ℝ) + 1) := by
    exact (mul_lt_mul_left hb).mpr (by exact_mod_cast h1)
  have h3 : b * (a / b) = a := by field_simp
  nlinarith

lemma pymod_add_self (a b : ℝ) (hb : b ≠ 0) : pymod (a + b) b = pymod a b := by
  unfold pymod
  have h : (a + b) / b = a / b + 1 := by field_simp
  rw [h, Int.floor_add_one]
  push_cast
  ring

lemma arrowsLoop_marker_segment (interval : ℝ) (rest : List (ℝ × ℝ)) :
    ∀ (p1 : ℝ × ℝ) (a : ℝ), ∀ m ∈ arrowsLoop interval p1 rest a,
      ∃ i, i + 1 < (p1 :: rest).length ∧ ∃ r : ℝ,
        m = (((p1 :: rest).getD i (0, 0)).1 +
              (((p1 :: rest).getD (i + 1) (0, 0)).1 - ((p1 :: rest).getD i (0, 0)).1) * r,
            ((p1 :: rest).getD i (0, 0)).2 +
              (((p1 :: rest).getD (i + 1) (0, 0)).2 - ((p1 :: rest).getD i (0, 0)).2) * r,
            calculate_bearing ((p1 :: rest).getD i (0, 0))
              ((p1 :: rest).getD (i + 1) (0, 0))) := by
  induction rest with
  | nil => intro p1 a m hm; simp [arrowsLoop_nil] at hm
  | cons p2 rest ih =>
    intro p1 a m hm
    by_cases h : interval ≤ a + haversine p1 p2
    · rw [arrowsLoop_cons_emit rest h] at hm
      rcases List.mem_cons.mp hm with hm | hm
      · subst hm
        exact ⟨0, by simp, (interval - a) / haversine p1 p2, rfl⟩
      · obtain ⟨i, hi, r, he⟩ := ih p2 (haversine p1 p2 - (interval - a)) m hm
        refine ⟨i + 1, ?_, r, ?_⟩
        · simp only [List.length_cons] at hi ⊢; omega
        · simpa [List.getD_cons_succ] using he
    · rw [arrowsLoop_cons_skip rest h] at hm
      obtain ⟨i, hi, r, he⟩ := ih p2 (a + haversine p1 p2) m hm
      refine ⟨i + 1, ?_, r, ?_⟩
      · simp only [List.length_cons] at hi ⊢; omega
      · simpa [List.getD_cons_succ] using he

/-- C7: `calculate_bearing` computes exactly the spec's forward azimuth,
normalised into `[0, 360)`, and every marker emitted by the annotator is the
linear interpolation along one consecutive vertex pair of the polyline — the
pair bracketing the segment it was emitted in — and carries
`calculate_bearing` of that same pair: its coordinates and its bearing come
from one and the same bracketing segment. -/
theorem bearing_formula_and_marker_bearing (c1 c2 : ℝ × ℝ) (path : List (ℝ × ℝ))
    (interval : ℝ) :
    (calculate_bearing c1 c2 = bearing_spec c1 c2 ∧
      0 ≤ calculate_bearing c1 c2 ∧ calculate_bearing c1 c2 < 360) ∧
    ∀ m ∈ get_interval_arrows path interval, ∃ i, i + 1 < path.length ∧ ∃ r : ℝ,
      m = ((path.getD i (0, 0)).1 +
            ((path.getD (i + 1) (0, 0)).1 - (path.getD i (0, 0)).1) * r,
          (path.getD i (0, 0)).2 +
            ((path.getD (i + 1) (0, 0)).2 - (path.getD i (0, 0)).2) * r,
          calculate_bearing (path.getD i (0, 0)) (path.getD (i + 1) (0, 0))) := by
  constructor
  · refine ⟨?_, ?_, ?_⟩
    · unfold calculate_bearing bearing_spec
      dsimp only
      rw [pymod_add_self _ 360 (by norm_num)]
      rfl
    · unfold calculate_bearing
      dsimp only
      exact pymod_nonneg _ (by norm_num)
    · unfold calculate_bearing
      dsimp only
      exact pymod_lt _ (by norm_num)
  · intro m hm
    match path with
    | [] => simp [get_interval_arrows] at hm
    | p :: rest =>
      simp only [get_interval_arrows] at hm
      exact arrowsLoop_marker_segment interval rest p 0 m hm

lemma arrows_two_points_eval :
    get_interval_arrows [((0 : ℝ), 0), (0, 180)] 3000 =
      [(((0 : ℝ), 0).1 + (((0 : ℝ), 180).1 - ((0 : ℝ), 0).1) *
          ((3000 - 0) / haversine ((0 : ℝ), 0) (0, 180)),
        ((0 : ℝ), 0).2 + (((0 : ℝ), 180).2 - ((0 : ℝ), 0).2) *
          ((3000 - 0) / haversine ((0 : ℝ), 0) (0, 180)),
        calculate_bearing ((0 : ℝ), 0) (0, 180))] := by
  have hpi := Real.pi_gt_three
  have hcond : (3000 : ℝ) ≤ 0 + haversine ((0 : ℝ), 0) (0, 180) := by
    rw [haversine_zero_180]; nlinarith
  simp only [get_interval_arrows]
  rw [arrowsLoop_cons_emit [] hcond, arrowsLoop_nil]

/-- Witness for C7: the single marker on the 0° → 180° equator polyline is
the interpolation along its bracketing vertex pair and carries that same
pair's bearing. -/
theorem bearing_formula_witness :
    (calculate_bearing ((0 : ℝ), 0) (0, 180) = bearing_spec ((0 : ℝ), 0) (0, 180) ∧
      0 ≤ calculate_bearing ((0 : ℝ), 0) (0, 180) ∧
      calculate_bearing ((0 : ℝ), 0) (0, 180) < 360) ∧
    ∃ i, i + 1 < ([((0 : ℝ), 0), (0, 180)] : List (ℝ × ℝ)).length ∧ ∃ r : ℝ,
      (((0 : ℝ), 0).1 + (((0 : ℝ), 180).1 - ((0 : ℝ), 0).1) *
          ((3000 - 0) / haversine ((0 : ℝ), 0) (0, 180)),
        ((0 : ℝ), 0).2 + (((0 : ℝ), 180).2 - ((0 : ℝ), 0).2) *
          ((3000 - 0) / haversine ((0 : ℝ), 0) (0, 180)),
        calculate_bearing ((0 : ℝ), 0) (0, 180)) =
      ((([((0 : ℝ), 0), (0, 180)] : List (ℝ × ℝ)).getD i (0, 0)).1 +
          ((([((0 : ℝ), 0), (0, 180)] : List (ℝ × ℝ)).getD (i + 1) (0, 0)).1 -
            (([((0 : ℝ), 0), (0, 180)] : List (ℝ × ℝ)).getD i (0, 0)).1) * r,
        (([((0 : ℝ), 0), (0, 180)] : List (ℝ × ℝ)).getD i (0, 0)).2 +
          ((([((0 : ℝ), 0), (0, 180)] : List (ℝ × ℝ)).getD (i + 1) (0, 0)).2 -
            (([((0 : ℝ), 0), (0, 180)] : List (ℝ × ℝ)).getD i (0, 0)).2) * r,
        calculate_bearing (([((0 : ℝ), 0), (0, 180)] : List (ℝ × ℝ)).getD i (0, 0))
          (([((0 : ℝ), 0), (0, 180)] : List (ℝ × ℝ)).getD (i + 1) (0, 0))) := by
  have h := bearing_formula_and_marker_bearing ((0 : ℝ), 0) (0, 180)
    [((0 : ℝ), 0), (0, 180)] 3000
  refine ⟨h.1, ?_⟩
  exact h.2 _ (by rw [arrows_two_points_eval]; exact List.mem_singleton_self _)

/-- One element of a Distance Matrix API response row: its `status` string
and its `distance.value` field (meters). -/
structure DMElement where
  status : String
  distance_value : ℕ
deriving DecidableEq

/-- `create_distance_matrix` from `src/app.py` lines 39-61 (same logic in
`src/app2.py` lines 38-58 and `src/app3.py` lines 97-110): each entry is the
element's `distance.value` when its status is "OK" and the sentinel 9999999
otherwise; `Except.error` models the service call raising, in which case the
function returns Python `None` (here `none`) instead of a partial matrix. -/
def create_distance_matrix (response : Except Unit (List (List DMElement))) :
    Option (List (List ℕ)) :=
  match response with
  | .error _ => none
  | .ok rows => some (rows.map fun row => row.map fun element =>
      if element.status = "OK" then element.distance_value else 9999999)

lemma getD_map_of_lt {α β : Type} (f : α → β) (l : List α) (n : ℕ) (d : α) (e : β)
    (h : n < l.length) : (l.map f).getD n e = f (l.getD n d) := by
  rw [List.getD_eq_getElem?_getD, List.getD_eq_getElem?_getD, List.getElem?_map,
    List.getElem?_eq_getElem h]
  rfl

/-- C6: `create_distance_matrix` maps an exception to `none` and a successful
response to the matrix whose `(i, j)` entry is the reported distance when that
element's status is "OK" and the sentinel 9999999 otherwise. -/
theorem create_distance_matrix_entries (response : Except Unit (List (List DMElement))) :
    (∀ u, response = Except.error u → create_distance_matrix response = none) ∧
    ∀ rows, response = Except.ok rows →
      ∃ M, create_distance_matrix response = some M ∧ M.length = rows.length ∧
        ∀ i j, i < rows.length → j < (rows.getD i []).length →
          (M.getD i []).getD j 0 =
            if ((rows.getD i []).getD j ⟨"", 0⟩).status = "OK"
            then ((rows.getD i []).getD j ⟨"", 0⟩).distance_value
            else 9999999 := by
  constructor
  · intro u hu; rw [hu]; rfl
  · intro rows hr
    rw [hr]
    refine ⟨_, rfl, by simp [create_distance_matrix], ?_⟩
    intro i j hi hj
    rw [getD_map_of_lt _ rows i [] [] hi, getD_map_of_lt _ (rows.getD i []) j ⟨"", 0⟩ 0 hj]

/-- Witness for C6 on a one-row response with one reachable and one
unreachable element. -/
theorem create_distance_matrix_entries_witness :
    ∃ M, create_distance_matrix
        (Except.ok [[(⟨"OK", 1200⟩ : DMElement), (⟨"ZERO_RESULTS", 7⟩ : DMElement)]]) = some M ∧
      M.length = ([[(⟨"OK", 1200⟩ : DMElement), (⟨"ZERO_RESULTS", 7⟩ : DMElement)]] :
        List (List DMElement)).length ∧
      ∀ i j, i < ([[(⟨"OK", 1200⟩ : DMElement), (⟨"ZERO_RESULTS", 7⟩ : DMElement)]] :
          List (List DMElement)).length →
        j < (([[(⟨"OK", 1200⟩ : DMElement), (⟨"ZERO_RESULTS", 7⟩ : DMElement)]] :
          List (List DMElement)).getD i []).length →
        (M.getD i []).getD j 0 =
          if ((([[(⟨"OK", 1200⟩ : DMElement), (⟨"ZERO_RESULTS", 7⟩ : DMElement)]] :
              List (List DMElement)).getD i []).getD j ⟨"", 0⟩).status = "OK"
          then ((([[(⟨"OK", 1200⟩ : DMElement), (⟨"ZERO_RESULTS", 7⟩ : DMElement)]] :
              List (List DMElement)).getD i []).getD j ⟨"", 0⟩).distance_value
          else 9999999 :=
  (create_distance_matrix_entries _).2 _ rfl

/-- `get_route_polyline` from `src/app3.py` lines 80-95 as a function of the
directions lookup's outcome.  `Except.error` models the lookup raising (the
bare `except: return []`); the `ok` payload is the list of returned routes,
each already decoded to its overview-polyline points.  The result `none`
models Python's implicit `None`: when the lookup succeeds but returns no
routes, the `if directions_result:` guard fails and the function falls off
the end without a `return`. -/
def get_route_polyline3 (directions_result : Except Unit (List (List (ℝ × ℝ))))
    (route_coords : List (ℝ × ℝ)) : Option (List (ℝ × ℝ)) :=
  if route_coords.length < 2 then some []
  else
    match directions_result with
    | .error _ => some []
    | .ok [] => none
    | .ok (route0 :: _) => some route0

/-- `get_route_polyline` from `src/app2.py` lines 60-98: the same lookup but
with an explicit trailing `return []`, so every failure path yields `[]`. -/
def get_route_polyline2 (directions_result : Except Unit (List (List (ℝ × ℝ))))
    (route_coords : List (ℝ × ℝ)) : List (ℝ × ℝ) :=
  if route_coords.length < 2 then []
  else
    match directions_result with
    | .error _ => []
    | .ok [] => []
    | .ok (route0 :: _) => route0

/-- C4 (code bug): when the directions lookup succeeds but yields no routes,
app3's `get_route_polyline` returns Python `None` (here `none`) instead of
the empty polyline the spec promises; app2's version of the same helper does
return `[]` there, and app3's other failure paths (exception, fewer than two
coordinates) also return `[]`. -/
theorem get_route_polyline_none_on_empty_result :
    get_route_polyline3 (Except.ok []) [((0 : ℝ), 0), (1, 1)] = none ∧
    get_route_polyline2 (Except.ok []) [((0 : ℝ), 0), (1, 1)] = [] ∧
    get_route_polyline3 (Except.error ()) [((0 : ℝ), 0), (1, 1)] = some [] ∧
    get_route_polyline3 (Except.ok []) [((0 : ℝ), 0)] = some [] :=
  ⟨rfl, rfl, rfl, rfl⟩

/-- The `path_to_draw` selection of `src/app3.py` line 308:
`detailed_path if detailed_path else vehicle_route_coords`, where both Python
`None` and the empty list are falsy. -/
def path_to_draw (detailed_path : Option (List (ℝ × ℝ)))
    (vehicle_route_coords : List (ℝ × ℝ)) : List (ℝ × ℝ) :=
  match detailed_path with
  | none => vehicle_route_coords
  | some [] => vehicle_route_coords
  | some (p :: rest) => p :: rest

/-- The drawing choice of `src/app2.py` lines 242-260: draw the detailed road
path when non-empty, otherwise fall back to the straight-line polyline through
the solved stop order. -/
def app2_drawn_path (detailed_path : List (ℝ × ℝ))
    (vehicle_route_coords : List (ℝ × ℝ)) : List (ℝ × ℝ) :=
  match detailed_path with
  | [] => vehicle_route_coords
  | p :: rest => p :: rest

/-- C9: whenever the path service raises, returns no routes, or returns an
empty polyline, the drawn path is exactly the straight-line polyline through
the vehicle's solved stop order (depot, stops in solver order, depot), in
both app3 and app2; the display never fails. -/
theorem display_falls_back_to_straight_line
    (directions_result : Except Unit (List (List (ℝ × ℝ))))
    (vehicle_route_coords : List (ℝ × ℝ))
    (h : directions_result = Except.error () ∨ directions_result = Except.ok [] ∨
      ∃ others, directions_result = Except.ok ([] :: others)) :
    path_to_draw (get_route_polyline3 directions_result vehicle_route_coords)
        vehicle_route_coords = vehicle_route_coords ∧
    app2_drawn_path (get_route_polyline2 directions_result vehicle_route_coords)
        vehicle_route_coords = vehicle_route_coords := by
  by_cases hl : vehicle_route_coords.length < 2 <;>
    rcases h with h | h | ⟨others, h⟩ <;> subst h <;>
    simp [get_route_polyline3, get_route_polyline2, path_to_draw, app2_drawn_path, hl]

/-- Witness for C9: an empty directions result falls back to the three-stop
straight-line route. -/
theorem display_falls_back_witness :
    path_to_draw (get_route_polyline3 (Except.ok []) [((0 : ℝ), 0), (5, 5), (0, 0)])
        [((0 : ℝ), 0), (5, 5), (0, 0)] = [((0 : ℝ), 0), (5, 5), (0, 0)] ∧
    app2_drawn_path (get_route_polyline2 (Except.ok []) [((0 : ℝ), 0), (5, 5), (0, 0)])
        [((0 : ℝ), 0), (5, 5), (0, 0)] = [((0 : ℝ), 0), (5, 5), (0, 0)] :=
  display_falls_back_to_straight_line _ _ (Or.inr (Or.inl rfl))

/-- Outcome of one press of the Plan-Routes button. -/
inductive RunOutcome where
  | missingApiKey : RunOutcome
  | infeasibleInput : RunOutcome
  | matrixFailed : RunOutcome
  | noSolution : RunOutcome
  | solved : List (List ℕ) → RunOutcome
deriving DecidableEq

/-- The run-button pipeline of `src/app2.py` lines 152-186 (the `N < 2` check
is lines 163-165, identical to `src/app.py` lines 141-143) as a function of
the geocoded address list and the two external outcomes.  Python's
`if dist_matrix:` treats both `None` and the empty list as falsy. -/
def run_button_main (api_key : String) (addresses : List String)
    (matrixResponse : Except Unit (List (List DMElement)))
    (solverResult : Option (List (List ℕ))) : RunOutcome :=
  if api_key = "" then .missingApiKey
  else if addresses.length < 2 then .infeasibleInput
  else
    match create_distance_matrix matrixResponse with
    | none => .matrixFailed
    | some [] => .matrixFailed
    | some (_ :: _) =>
      match solverResult with
      | none => .noSolution
      | some sol => .solved sol

/-- The vehicles widget `st.number_input(min_value=1, max_value=4, value=2)`
(`src/app2.py` line 145, `src/app3.py` line 212): the widget only ever
delivers a value inside `[min_value, max_value]`; a request outside the range
is refused by the input control. -/
def number_input_value (minv maxv requested : ℤ) : Option ℤ :=
  if minv ≤ requested ∧ requested ≤ maxv then some requested else none

/-- C5: with fewer than 2 geocoded locations the run stops as infeasible
input whatever the distance-matrix service or the solver would answer — so
neither is consulted and no solution is produced — and the vehicles widget
never delivers a count below 1. -/
theorem run_rejects_small_input (api_key : String) (addresses : List String)
    (hkey : api_key ≠ "") (hN : addresses.length < 2) :
    (∀ matrixResponse solverResult,
      run_button_main api_key addresses matrixResponse solverResult =
        RunOutcome.infeasibleInput) ∧
    ∀ requested : ℤ, requested < 1 → number_input_value 1 4 requested = none := by
  constructor
  · intro mr sr
    unfold run_button_main
    rw [if_neg hkey, if_pos hN]
  · intro r hr
    unfold number_input_value
    rw [if_neg]
    omega

/-- Witness for C5: one geocoded address aborts the run; a request for zero
vehicles is refused by the widget. -/
theorem run_rejects_small_input_witness :
    run_button_main ("key") ["only-one-address"] (Except.ok []) none =
      RunOutcome.infeasibleInput ∧
    number_input_value 1 4 0 = none :=
  ⟨(run_rejects_small_input ("key") ["only-one-address"] (by decide) (by decide)).1
      (Except.ok []) none,
    (run_rejects_small_input ("key") ["only-one-address"] (by decide) (by decide)).2 0
      (by norm_num)⟩

/-- An OR-Tools routing dimension as installed by `solve_vrp`:
`routing.AddDimension(transit_callback_index, slack_max, capacity,
fix_start_cumul_to_zero, name)`. -/
structure RoutingDimension where
  slack_max : ℕ
  capacity : ℕ
  fix_start_cumul_to_zero : Bool
deriving DecidableEq

/-- The routing model `solve_vrp` hands to the OR-Tools search: node count,
vehicle count, depot, the arc-cost callback reading the distance matrix, the
Distance dimension and its global span coefficient. -/
structure VrpModel where
  node_count : ℕ
  num_vehicles : ℕ
  depot_index : ℕ
  arc_cost : ℕ → ℕ → ℕ
  distance_dimension : RoutingDimension
  global_span_cost_coefficient : ℕ

/-- `solve_vrp`'s model construction from `src/app.py` lines 63-91 (identical
in `src/app2.py` lines 100-123 and `src/app3.py` lines 112-133): the arc cost
is the matrix entry, and the Distance dimension has zero slack, capacity
3 000 000 and its start cumul fixed to zero. -/
def solve_vrp_model (distance_matrix : List (List ℕ)) (num_vehicles depot_index : ℕ) :
    VrpModel where
  node_count := distance_matrix.length
  num_vehicles := num_vehicles
  depot_index := depot_index
  arc_cost := fun i j => (distance_matrix.getD i []).getD j 0
  distance_dimension := ⟨0, 3000000, true⟩
  global_span_cost_coefficient := 100

/-- Cumulative values of a zero-slack dimension whose start cumul is fixed,
along a route (OR-Tools semantics: `cumul(next) = cumul(node) + transit`). -/
def routeCumuls (transit : ℕ → ℕ → ℕ) : ℕ → List ℕ → List ℕ
  | _, [] => []
  | c, [_] => [c]
  | c, a :: b :: rest => c :: routeCumuls transit (c + transit a b) (b :: rest)

/-- Total transit cost along a route. -/
def routeDistance (transit : ℕ → ℕ → ℕ) : List ℕ → ℕ
  | [] => 0
  | [_] => 0
  | a :: b :: rest => transit a b + routeDistance transit (b :: rest)

/-- A route satisfies a dimension's constraints when every cumulative value
stays within its capacity. -/
def dimensionFeasibleRoute (dim : RoutingDimension) (transit : ℕ → ℕ → ℕ)
    (route : List ℕ) : Prop :=
  ∀ c ∈ routeCumuls transit 0 route, c ≤ dim.capacity

/-- The structural constraints of the routing model: one route per vehicle,
each starting and ending at the depot, every non-depot node visited exactly
once across all routes. -/
def structuralSolution (m : VrpModel) (routes : List (List ℕ)) : Prop :=
  routes.length = m.num_vehicles ∧
  (∀ r ∈ routes, r.head? = some m.depot_index ∧ r.getLast? = some m.depot_index) ∧
  ∀ n < m.node_count, n ≠ m.depot_index → (routes.map fun r => r.count n).sum = 1

/-- Feasibility in the model `solve_vrp` builds: the structural constraints
plus the Distance dimension's capacity on every route. -/
def solutionFeasible (m : VrpModel) (routes : List (List ℕ)) : Prop :=
  structuralSolution m routes ∧
  ∀ r ∈ routes, dimensionFeasibleRoute m.distance_dimension m.arc_cost r

/-- C3 (counterexample): the fleet is not free of route-distance bounds — the
Distance dimension caps each vehicle's accumulated distance at 3 000 000 m.
With the matrix `[[0, 4000000], [4000000, 0]]` and one vehicle, the unique
structurally valid solution `[0, 1, 0]` violates the dimension, while the
same structure over `[[0, 100], [100, 0]]` is feasible: feasibility depends
precisely on the accumulated route distance. -/
theorem solve_vrp_distance_cap_infeasible :
    structuralSolution (solve_vrp_model [[0, 4000000], [4000000, 0]] 1 0) [[0, 1, 0]] ∧
    ¬ solutionFeasible (solve_vrp_model [[0, 4000000], [4000000, 0]] 1 0) [[0, 1, 0]] ∧
    solutionFeasible (solve_vrp_model [[0, 100], [100, 0]] 1 0) [[0, 1, 0]] := by
  refine ⟨?_, ?_, ?_⟩
  · unfold structuralSolution solve_vrp_model
    decide
  · unfold solutionFeasible structuralSolution dimensionFeasibleRoute solve_vrp_model
    decide
  · unfold solutionFeasible structuralSolution dimensionFeasibleRoute solve_vrp_model
    decide

lemma routeDistance_mem_cumuls (transit : ℕ → ℕ → ℕ) :
    ∀ (route : List ℕ) (c : ℕ), route ≠ [] →
      (c + routeDistance transit route) ∈ routeCumuls transit c route := by
  intro route
  induction route with
  | nil => intro c h; exact absurd rfl h
  | cons a rest ih =>
    intro c _
    match rest with
    | [] => simp [routeCumuls, routeDistance]
    | b :: rest2 =>
      have h2 := ih ?tail
      case tail => exact c + transit a b
      · simp only [routeCumuls, routeDistance, List.mem_cons]
        right
        have h3 := h2 (by simp)
        rw [show c + (transit a b + routeDistance transit (b :: rest2)) =
          c + transit a b + routeDistance transit (b :: rest2) by ring]
        exact h3

/-- C3 (amended): the routing model built by `solve_vrp` bounds every
vehicle's accumulated route distance: any solution feasible for the model has
every route's total transit at most 3 000 000 (the Distance dimension's
capacity). -/
theorem solve_vrp_route_distance_le_cap (D : List (List ℕ)) (K depot : ℕ)
    (routes : List (List ℕ))
    (h : solutionFeasible (solve_vrp_model D K depot) routes) :
    ∀ r ∈ routes, routeDistance (solve_vrp_model D K depot).arc_cost r ≤ 3000000 := by
  intro r hr
  have hdim := h.2 r hr
  match r with
  | [] => simp [routeDistance]
  | a :: rest =>
    have hmem := routeDistance_mem_cumuls (solve_vrp_model D K depot).arc_cost
      (a :: rest) 0 (by simp)
    have hle := hdim _ hmem
    simpa [solve_vrp_model] using hle

/-- Witness for the amended C3 on a feasible two-node instance. -/
theorem solve_vrp_route_distance_le_cap_witness :
    routeDistance (solve_vrp_model [[0, 100], [100, 0]] 1 0).arc_cost [0, 1, 0] ≤ 3000000 :=
  solve_vrp_route_distance_le_cap [[0, 100], [100, 0]] 1 0 [[0, 1, 0]]
    (by unfold solutionFeasible structuralSolution dimensionFeasibleRoute solve_vrp_model
        decide)
    [0, 1, 0] (by decide)

/-- C8: a polyline of fewer than 2 points yields an empty marker sequence. -/
theorem interval_arrows_degenerate_empty (path : List (ℝ × ℝ)) (interval : ℝ)
    (h : path.length < 2) : get_interval_arrows path interval = [] := by
  match path with
  | [] => rfl
  | [p] => rfl
  | p :: q :: rest =>
    simp only [List.length_cons] at h
    exact absurd h (by omega)

/-- Witness for C8 at the one-point polyline. -/
theorem interval_arrows_degenerate_empty_witness :
    get_interval_arrows [((0 : ℝ), (0 : ℝ))] 3000 = [] :=
  interval_arrows_degenerate_empty [((0 : ℝ), (0 : ℝ))] 3000 (by simp)

/-- C10: `get_interval_arrows` emits at most one marker per polyline segment:
its output never has more entries than `path.length - 1`. -/
theorem interval_arrows_at_most_one_per_segment (path : List (ℝ × ℝ)) (interval : ℝ) :
    (get_interval_arrows path interval).length ≤ path.length - 1 := by
  match path with
  | [] => simp [get_interval_arrows]
  | p :: rest =>
    simpa [get_interval_arrows] using arrowsLoop_length_le interval rest p 0
